import Mathlib

/-!
Verification of the Topolang ULC→SLC layer.

This file embeds, in Lean, the C++ core of the repository: the `SLC_set`
data model (a `std::set` of `std::variant<std::string_view,
std::shared_ptr<SLC_set>, int>` elements), its `to_string` serialization,
`make_number`, the two AST→set converters (`convert_subset_dbj` and
`convert_subset`), the ULC lexer/parser, and the bracket-skeleton parser
`parse_toposet`.

Modelling notes:
* A C++ `std::set<SLC_element>` keeps its elements sorted by
  `std::variant`'s `operator<`: first by alternative index
  (`string_view` < `shared_ptr<SLC_set>` < `int`), then by the value;
  `shared_ptr` values compare by the *address* of the pointed-to
  allocation, never by the structure of the pointed-to set.  The embedding
  therefore carries the address as an explicit `Nat` field on nested-set
  elements, and every `std::make_shared` allocation in the source is
  modelled by drawing a fresh address from a monotone counter threaded
  through the computation (a bump allocator: each allocation returns an
  address strictly larger than all previously returned ones, which is how
  every element inserted by this program obtains its address).
* Sorted-insertion into the element list models `std::set::insert`: an
  element equivalent to a present one (neither `<` holds) is not inserted.
-/

mutual

inductive SLC_set : Type where
  | mk (elements : List SLC_element) : SLC_set
deriving Repr

inductive SLC_element : Type where
  | sym (s : String) : SLC_element
  | ptr (addr : Nat) (child : SLC_set) : SLC_element
  | int (n : Int) : SLC_element
deriving Repr

end

/-- The element list held by the `std::set` (in its sorted order). -/
def SLC_set.elements : SLC_set → List SLC_element
  | .mk l => l

/-- The `operator<` of `std::variant` on `SLC_element`: alternative index first
(`string_view` = 0, `shared_ptr<SLC_set>` = 1, `int` = 2), then the value;
`shared_ptr` compares by the address of the allocation. -/
def elemLt : SLC_element → SLC_element → Bool
  | .sym a, .sym b => a < b
  | .sym _, .ptr _ _ => true
  | .sym _, .int _ => true
  | .ptr _ _, .sym _ => false
  | .ptr a _, .ptr b _ => a < b
  | .ptr _ _, .int _ => true
  | .int _, .sym _ => false
  | .int _, .ptr _ _ => false
  | .int a, .int b => a < b

/-- Model of `std::set::insert` on the sorted element list: keep the order strict;
if an equivalent element (neither strictly less) is found the insertion is
a no-op. -/
def insertElem (e : SLC_element) : List SLC_element → List SLC_element
  | [] => [e]
  | x :: xs =>
    if elemLt e x then e :: x :: xs
    else if elemLt x e then x :: insertElem e xs
    else x :: xs

/-- The `set.elements.insert(e)` operation of the source. -/
def SLC_set.insert (s : SLC_set) (e : SLC_element) : SLC_set :=
  .mk (insertElem e s.elements)

mutual

/-- Model of `SLC_set::to_string`: `{` + elements in the container's iteration
order, separated by `", "`, + `}`; symbols print their text, ints print in
decimal, nested sets recurse. -/
def SLC_set.to_string : SLC_set → String
  | .mk l => "\x7b" ++ renderElements l ++ "\x7d"

/-- Iteration over the element list with `", "` separators. -/
def renderElements : List SLC_element → String
  | [] => ""
  | [e] => renderElement e
  | e :: f :: r => renderElement e ++ ", " ++ renderElements (f :: r)

/-- One element of the `to_string` loop body. -/
def renderElement : SLC_element → String
  | .sym s => s
  | .int n => toString n
  | .ptr _ c => SLC_set.to_string c

end

/-- Comma-joining, as in the serialization. -/
def joinComma : List String → String
  | [] => ""
  | [s] => s
  | s :: t :: r => s ++ ", " ++ joinComma (t :: r)

/-- Insert a string into a sorted, duplicate-free list of strings
(duplicates collapse), for the spec-side canonical form. -/
def insertStr (s : String) : List String → List String
  | [] => [s]
  | x :: xs =>
    if s < x then s :: x :: xs
    else if x < s then x :: insertStr s xs
    else x :: xs

mutual

/-- Modelled from the spec (§3): the canonical serialization of a term,
under which element equality and order are purely structural — elements
are rendered (with a kind tag so the three kinds cannot collide), sorted,
and duplicates collapse; nested sets compare by their own canonical
serialization.  Two `SLC_set`s have identical final element collections,
in the spec's sense, exactly when their `canon` strings coincide.  This is
the spec-side definition used to state structural identity; it is *not*
the implementation's `to_string`. -/
def canon : SLC_set → String
  | .mk l => "\x7b" ++ joinComma (canonList l) ++ "\x7d"
termination_by structural s => s

/-- Sorted duplicate-free list of canonical element renderings. -/
def canonList : List SLC_element → List String
  | [] => []
  | e :: r => insertStr (canonElem e) (canonList r)
termination_by structural l => l

/-- Canonical rendering of one element, tagged by kind. -/
def canonElem : SLC_element → String
  | .sym s => "s:" ++ s
  | .int n => "i:" ++ toString n
  | .ptr _ c => canon c
termination_by structural e => e

end

/-- The extras loop of `make_number`: `n` fresh empty sets inserted with
consecutive addresses starting at `k`. -/
def addExtras : Nat → Nat → SLC_set → SLC_set
  | 0, _, s => s
  | n + 1, k, s => addExtras n (k + 1) (s.insert (.ptr k (.mk [])))

/-- Model of `ULC_converter::make_number`: builds `{{{}, {}}}` for 1 and adds
`number - 1` extra empty-set siblings for larger inputs.  Allocations (in
source order): the two empty sets of the base pair, the base pair itself,
then one per loop iteration.  Returns the set together with the next free
address. -/
def make_number (number : Int) (k : Nat) : SLC_set × Nat :=
  let num_base := ((SLC_set.mk []).insert (.ptr k (.mk []))).insert (.ptr (k + 1) (.mk []))
  let num_top := (SLC_set.mk []).insert (.ptr (k + 2) num_base)
  (addExtras (number - 1).toNat (k + 3) num_top, k + 3 + (number - 1).toNat)

/-- The runtime errors thrown by the C++ core, one constructor per
`throw` site. -/
inductive CppError : Type where
  /-- `"Unexpected '}'"` in `toposet_parser::parse_toposet`. -/
  | unexpectedClose : CppError
  /-- `"Could not parse!"` in `toposet_parser::parse_toposet`. -/
  | couldNotParse : CppError
  /-- `"Invalid token"` in `ULC_lexer::next_token`. -/
  | invalidToken : CppError
  /-- `"Unbalanced parens!"` in `ULC_parser::parse_atomic`. -/
  | unbalancedParens : CppError
  /-- `"Unknown variable"` in the converters. -/
  | unknownVariable : CppError
  /-- `"Huh??"` at the end of `ULC_converter::convert_subset`. -/
  | huh : CppError
  /-- Model-internal only, no C++ counterpart: the recursion budget of the
  fuelled parser functions ran out.  Unreachable from `ULC_parse`, whose
  fuel exceeds the input length while every nested call consumes at least
  one character. -/
  | outOfFuel : CppError
deriving DecidableEq, Repr

/-- The character loop of `toposet_parser::parse_toposet`, carrying the
explicit stack of in-progress sets (innermost first) and the allocation
counter.  `'{'` pushes a fresh empty set; `'}'` with an empty stack throws
`Unexpected '}'`; `'}'` completing the outermost open set returns it
immediately; `'}'` otherwise allocates the completed set and inserts it
into its parent; every other character is ignored; exhausting the input
throws `Could not parse!`. -/
def parse_toposet_loop : List Char → List SLC_set → Nat → Except CppError SLC_set
  | [], _, _ => .error .couldNotParse
  | c :: rest, stk, k =>
    if c = '\x7b' then
      parse_toposet_loop rest (SLC_set.mk [] :: stk) k
    else if c = '\x7d' then
      match stk with
      | [] => .error .unexpectedClose
      | completed :: stk' =>
        match stk' with
        | [] => .ok completed
        | parent :: rest' =>
          parse_toposet_loop rest (parent.insert (.ptr k completed) :: rest') (k + 1)
    else
      parse_toposet_loop rest stk k

/-- Model of `toposet_parser::parse_toposet` on the raw character sequence,
starting from an empty stack and allocation counter 0. -/
def parse_toposet (str : List Char) : Except CppError SLC_set :=
  parse_toposet_loop str [] 0

/-- Does a `'}'` occur before any `'{'`?  This is exactly the condition
under which the loop pops with an empty stack: once a `'{'` has been seen
the stack stays nonempty until the parse returns. -/
def closeBeforeOpen : List Char → Bool
  | [] => false
  | c :: r =>
    if c = '\x7d' then true
    else if c = '\x7b' then false
    else closeBeforeOpen r

/-- Tracking an open-brace depth `d ≥ 1`: does the remaining input ever
bring the depth back to zero? -/
def depthCloses : List Char → Nat → Bool
  | [], _ => false
  | c :: r, d =>
    if c = '\x7b' then depthCloses r (d + 1)
    else if c = '\x7d' then (if d = 1 then true else depthCloses r (d - 1))
    else depthCloses r d

/-- Does the input contain a complete top-level `{...}` group (a first
`'{'` whose depth later returns to zero)? -/
def completesTopLevel : List Char → Bool
  | [] => false
  | c :: r =>
    if c = '\x7b' then depthCloses r 1
    else if c = '\x7d' then false
    else completesTopLevel r

/-- Once the stack is nonempty it can never underflow: the loop either
returns (when the outermost open set closes), keeps going, or runs out of
input; and running out of input is exactly the failure of the depth ever
returning to zero. -/
theorem parse_loop_stack_nonempty :
    ∀ (cs : List Char) (s₀ : SLC_set) (stk' : List SLC_set) (k : Nat),
      parse_toposet_loop cs (s₀ :: stk') k ≠ Except.error CppError.unexpectedClose ∧
      ((parse_toposet_loop cs (s₀ :: stk') k = Except.error CppError.couldNotParse) ↔
        depthCloses cs (stk'.length + 1) = false) := by
  intro cs
  induction cs with
  | nil =>
    intro s₀ stk' k
    refine ⟨by simp [parse_toposet_loop], by simp [parse_toposet_loop, depthCloses]⟩
  | cons c rest ih =>
    intro s₀ stk' k
    by_cases h1 : c = '\x7b'
    · subst h1
      simpa [parse_toposet_loop, depthCloses] using ih (SLC_set.mk []) (s₀ :: stk') k
    · by_cases h2 : c = '\x7d'
      · subst h2
        cases stk' with
        | nil => simp [parse_toposet_loop, depthCloses, h1]
        | cons p rest' =>
          have := ih (p.insert (.ptr k s₀)) rest' (k + 1)
          simpa [parse_toposet_loop, depthCloses, h1] using this
      · simpa [parse_toposet_loop, depthCloses, h1, h2] using ih s₀ stk' k

/-- Behaviour of the whole parse classified by the two input predicates:
the `Unexpected '}'` throw happens exactly when a `'}'` precedes every
`'{'`, and the `Could not parse!` throw happens exactly when it does not
but no top-level group ever completes. -/
theorem parse_toposet_error_characterization :
    ∀ cs : List Char,
      ((parse_toposet cs = Except.error CppError.unexpectedClose) ↔
        closeBeforeOpen cs = true) ∧
      ((parse_toposet cs = Except.error CppError.couldNotParse) ↔
        (closeBeforeOpen cs = false ∧ completesTopLevel cs = false)) := by
  intro cs
  induction cs with
  | nil =>
    refine ⟨by simp [parse_toposet, parse_toposet_loop, closeBeforeOpen], ?_⟩
    simp [parse_toposet, parse_toposet_loop, closeBeforeOpen, completesTopLevel]
  | cons c rest ih =>
    by_cases h1 : c = '\x7b'
    · subst h1
      have h := parse_loop_stack_nonempty rest (SLC_set.mk []) [] 0
      constructor
      · simpa [parse_toposet, parse_toposet_loop, closeBeforeOpen] using h.1
      · simpa [parse_toposet, parse_toposet_loop, closeBeforeOpen,
          completesTopLevel] using h.2
    · by_cases h2 : c = '\x7d'
      · subst h2
        constructor
        · simp [parse_toposet, parse_toposet_loop, closeBeforeOpen, h1]
        · simp [parse_toposet, parse_toposet_loop, closeBeforeOpen, h1]
      · have := ih
        constructor
        · simpa [parse_toposet, parse_toposet_loop, closeBeforeOpen,
            completesTopLevel, h1, h2] using this.1
        · simpa [parse_toposet, parse_toposet_loop, closeBeforeOpen,
            completesTopLevel, h1, h2] using this.2

/-- A pure nesting skeleton: what remains of bracket text after every
non-brace character is dropped. -/
inductive Skeleton : Type where
  | node (children : List Skeleton) : Skeleton
deriving Repr

mutual

/-- The bracket text of a skeleton: `{`, the children in order, `}`. -/
def renderSkel : Skeleton → List Char
  | .node cs => '\x7b' :: (renderSkelList cs ++ ['\x7d'])

/-- Concatenated bracket texts of a list of skeletons. -/
def renderSkelList : List Skeleton → List Char
  | [] => []
  | t :: ts => renderSkel t ++ renderSkelList ts

end

mutual

/-- Modelled from the spec (§4.6): every `{...}` group becomes a nested
(initially empty) Set Term inserted into its enclosing term.  The
insertion is the implementation's `std::set::insert` and the allocation
counter follows completion order, as in the structural parser.  Returns
the reconstructed term together with the next free address. -/
def skelToSet : Skeleton → Nat → SLC_set × Nat
  | .node cs, k => skelChildren cs (SLC_set.mk []) k

/-- Fold the children of a group into the enclosing in-progress term. -/
def skelChildren : List Skeleton → SLC_set → Nat → SLC_set × Nat
  | [], acc, k => (acc, k)
  | t :: ts, acc, k =>
    let p := skelToSet t k
    skelChildren ts (acc.insert (.ptr p.2 p.1)) (p.2 + 1)

end

mutual

/-- Running the structural parser over the rendering of one skeleton with
a nonempty stack completes that group and inserts it into the stack top. -/
theorem parse_loop_render (t : Skeleton) (rest : List Char) (top : SLC_set)
    (stk : List SLC_set) (k : Nat) :
    parse_toposet_loop (renderSkel t ++ rest) (top :: stk) k =
      parse_toposet_loop rest
        (top.insert (.ptr (skelToSet t k).2 (skelToSet t k).1) :: stk)
        ((skelToSet t k).2 + 1) := by
  match t with
  | .node cs =>
    have h := parse_loop_render_list cs ('\x7d' :: rest) (SLC_set.mk []) (top :: stk) k
    simp only [renderSkel, List.cons_append, List.append_assoc, List.singleton_append,
      List.nil_append]
    rw [show parse_toposet_loop ('\x7b' :: (renderSkelList cs ++ '\x7d' :: rest))
          (top :: stk) k =
        parse_toposet_loop (renderSkelList cs ++ '\x7d' :: rest)
          (SLC_set.mk [] :: top :: stk) k from by simp [parse_toposet_loop]]
    rw [h]
    simp [parse_toposet_loop, skelToSet]

/-- Running the structural parser over the renderings of a list of
skeletons folds them, in order, into the stack top. -/
theorem parse_loop_render_list (ts : List Skeleton) (rest : List Char)
    (acc : SLC_set) (stk : List SLC_set) (k : Nat) :
    parse_toposet_loop (renderSkelList ts ++ rest) (acc :: stk) k =
      parse_toposet_loop rest ((skelChildren ts acc k).1 :: stk)
        (skelChildren ts acc k).2 := by
  match ts with
  | [] => simp [renderSkelList, skelChildren]
  | t :: ts' =>
    have h1 := parse_loop_render t (renderSkelList ts' ++ rest) acc stk k
    have h2 := parse_loop_render_list ts' rest
      (acc.insert (.ptr (skelToSet t k).2 (skelToSet t k).1)) stk ((skelToSet t k).2 + 1)
    simp only [renderSkelList, List.append_assoc] at h1 ⊢
    rw [h1, h2]
    simp [skelChildren]

end

/-- The structural parser, run on the bracket text of any skeleton,
succeeds and reconstructs exactly that skeleton (as the spec-side
`skelToSet` reconstruction, allocation counter starting at 0). -/
theorem parse_toposet_renderSkel (t : Skeleton) :
    parse_toposet (renderSkel t) = Except.ok (skelToSet t 0).1 := by
  match t with
  | .node cs =>
    have h := parse_loop_render_list cs ['\x7d'] (SLC_set.mk []) [] 0
    unfold parse_toposet
    simp only [renderSkel, skelToSet]
    rw [show parse_toposet_loop ('\x7b' :: (renderSkelList cs ++ ['\x7d'])) [] 0 =
        parse_toposet_loop (renderSkelList cs ++ ['\x7d']) [SLC_set.mk []] 0 from by
      simp [parse_toposet_loop]]
    rw [h]
    simp [parse_toposet_loop]

/-- Brace or not, as tested by the loop. -/
def isBrace (c : Char) : Bool := c = '\x7b' || c = '\x7d'

/-- All non-brace characters are ignored: the loop behaves identically on
the input filtered down to its braces. -/
theorem parse_loop_filter :
    ∀ (cs : List Char) (stk : List SLC_set) (k : Nat),
      parse_toposet_loop cs stk k = parse_toposet_loop (cs.filter isBrace) stk k := by
  intro cs
  induction cs with
  | nil => intro stk k; rfl
  | cons c rest ih =>
    intro stk k
    by_cases h1 : c = '\x7b'
    · subst h1
      cases stk <;> simp [parse_toposet_loop, List.filter, isBrace, ih]
    · by_cases h2 : c = '\x7d'
      · subst h2
        match stk with
        | [] => simp [parse_toposet_loop, List.filter, isBrace, h1]
        | [completed] => simp [parse_toposet_loop, List.filter, isBrace, h1]
        | completed :: parent :: rest' =>
          simp [parse_toposet_loop, List.filter, isBrace, h1, ih]
      · simp [parse_toposet_loop, List.filter, isBrace, h1, h2, ih]

/-- The parse returns the moment the first top-level group completes:
whatever text follows cannot change an already-successful result. -/
theorem parse_loop_append_ok :
    ∀ (cs : List Char) (stk : List SLC_set) (k : Nat) (s : SLC_set) (r : List Char),
      parse_toposet_loop cs stk k = Except.ok s →
      parse_toposet_loop (cs ++ r) stk k = Except.ok s := by
  intro cs
  induction cs with
  | nil => intro stk k s r h; simp [parse_toposet_loop] at h
  | cons c rest ih =>
    intro stk k s r h
    by_cases h1 : c = '\x7b'
    · subst h1
      simp only [List.cons_append]
      simp only [parse_toposet_loop, if_pos] at h ⊢
      exact ih _ _ _ _ h
    · by_cases h2 : c = '\x7d'
      · subst h2
        match stk with
        | [] => simp [parse_toposet_loop, h1] at h
        | [completed] => simpa [parse_toposet_loop, h1] using h
        | completed :: parent :: rest' =>
          simp only [List.cons_append]
          simp only [parse_toposet_loop, h1, reduceIte] at h ⊢
          exact ih _ _ _ _ h
      · simp only [List.cons_append]
        simp only [parse_toposet_loop, h1, h2, reduceIte] at h ⊢
        exact ih _ _ _ _ h

/-- The `ULC_AST_node` type, restricted to the well-formed shapes the parser
produces: an `ATOMIC` node carries its variable token text; a `DEFINITION`
node's `right` child is the bound-variable token (stored here as its text,
which is all the converters read from it) and its `left` child the body;
an `APPLICATION` node has `left` and `right` children; a `GROUP` node's
`right` child is the parenthesized inner expression.  `nullNode` models a
null `unique_ptr` child: the parser stores the result of
`parse_expression()` into a `GROUP` node without a null check, so `"()"`
yields a `GROUP` whose child is null, and both converters' leading
`if (!node) return ret_set;` guard turns such a child into the empty set.
(The parser never places a null child under a `DEFINITION` or
`APPLICATION`, so the model's value for those inputs is never
exercised.) -/
inductive ULC_AST : Type where
  | atomic (name : String) : ULC_AST
  | definition (var : String) (body : ULC_AST) : ULC_AST
  | application (left right : ULC_AST) : ULC_AST
  | group (inner : ULC_AST) : ULC_AST
  | nullNode : ULC_AST
deriving Repr, DecidableEq

/-- Model of `std::find` over the capture stack followed by
`std::distance(begin, it) + 1`: the 1-based position of the first
occurrence, `none` when absent. -/
def find_position (v : String) : List String → Option Nat
  | [] => none
  | x :: xs => if x = v then some 1 else (find_position v xs).map (· + 1)

/-- The `node->type == ULC_AST_type::ATOMIC` test both converters apply to
the direct children of a `DEFINITION` or `APPLICATION`, together with the
token text they read off such a child. -/
def isAtomicName : ULC_AST → Option String
  | .atomic n => some n
  | _ => none

/-- Model of `ULC_converter::convert_subset_dbj`: De Bruijn-mode conversion.
Mirrors the C++ switch: `DEFINITION` inserts the `λ` symbol, pushes the
bound name, and either resolves an `ATOMIC` body to its 1-based capture
position inserted as a raw integer or recurses and inserts the sub-set
behind a fresh allocation; `APPLICATION` builds the promote set from the
left child and combines it with the right child; `GROUP` is transparent;
an `ATOMIC` at switch position has no case and falls through to
`return ret_set` — the empty set, with no error.  `lambda_depth` is
carried but never read, as in the source.  The final `Nat` is the
allocation counter. -/
def convert_subset_dbj : ULC_AST → Int → List String → Nat →
    Except CppError (SLC_set × Nat)
  | .definition v b, lambda_depth, captured, k =>
    let ret₀ := (SLC_set.mk []).insert (.sym "λ")
    match isAtomicName b with
    | some var_name =>
      match find_position var_name (v :: captured) with
      | none => .error .unknownVariable
      | some position => .ok (ret₀.insert (.int (position : Int)), k)
    | none =>
      match convert_subset_dbj b (lambda_depth + 1) (v :: captured) k with
      | .error e => .error e
      | .ok (sub, k₁) => .ok (ret₀.insert (.ptr k₁ sub), k₁ + 1)
  | .application l r, lambda_depth, captured, k =>
    let leftStep : Except CppError (SLC_set × Nat) :=
      match isAtomicName l with
      | some var_name =>
        match find_position var_name captured with
        | none => .error .unknownVariable
        | some position => .ok ((SLC_set.mk []).insert (.int (position : Int)), k)
      | none =>
        match convert_subset_dbj l lambda_depth captured k with
        | .error e => .error e
        | .ok (sub, k₁) => .ok ((SLC_set.mk []).insert (.ptr k₁ sub), k₁ + 1)
    match leftStep with
    | .error e => .error e
    | .ok (promote_set, k₂) =>
      let ret₁ := (SLC_set.mk []).insert (.ptr k₂ promote_set)
      match isAtomicName r with
      | some var_name =>
        match find_position var_name captured with
        | none => .error .unknownVariable
        | some position => .ok (ret₁.insert (.int (position : Int)), k₂ + 1)
      | none =>
        match convert_subset_dbj r lambda_depth captured (k₂ + 1) with
        | .error e => .error e
        | .ok (sub, k₄) => .ok (ret₁.insert (.ptr k₄ sub), k₄ + 1)
  | .group inner, lambda_depth, captured, k =>
    convert_subset_dbj inner lambda_depth captured k
  | .atomic _, _, _, k => .ok (SLC_set.mk [], k)
  | .nullNode, _, _, k => .ok (SLC_set.mk [], k)

/-- Model of `ULC_converter::convert_subset`: name-preserving-mode conversion.
Same traversal as the De Bruijn mode, but a `DEFINITION` marks the binder
with the two-level `{{}}` wrapper (two allocations) instead of the `λ`
symbol, and every resolved capture position is rendered through
`make_number` behind a fresh allocation.  An `ATOMIC` at switch position
falls off the switch and reaches `throw std::runtime_error("Huh??")`. -/
def convert_subset : ULC_AST → Int → List String → Nat →
    Except CppError (SLC_set × Nat)
  | .definition v b, lambda_depth, captured, k =>
    let lambda_top := (SLC_set.mk []).insert (.ptr k (SLC_set.mk []))
    let ret₀ := (SLC_set.mk []).insert (.ptr (k + 1) lambda_top)
    match isAtomicName b with
    | some var_name =>
      match find_position var_name (v :: captured) with
      | none => .error .unknownVariable
      | some position =>
        let p := make_number (position : Int) (k + 2)
        .ok (ret₀.insert (.ptr p.2 p.1), p.2 + 1)
    | none =>
      match convert_subset b (lambda_depth + 1) (v :: captured) (k + 2) with
      | .error e => .error e
      | .ok (sub, k₁) => .ok (ret₀.insert (.ptr k₁ sub), k₁ + 1)
  | .application l r, lambda_depth, captured, k =>
    let leftStep : Except CppError (SLC_set × Nat) :=
      match isAtomicName l with
      | some var_name =>
        match find_position var_name captured with
        | none => .error .unknownVariable
        | some position =>
          let p := make_number (position : Int) k
          .ok ((SLC_set.mk []).insert (.ptr p.2 p.1), p.2 + 1)
      | none =>
        match convert_subset l lambda_depth captured k with
        | .error e => .error e
        | .ok (sub, k₁) => .ok ((SLC_set.mk []).insert (.ptr k₁ sub), k₁ + 1)
    match leftStep with
    | .error e => .error e
    | .ok (promote_set, k₂) =>
      let ret₁ := (SLC_set.mk []).insert (.ptr k₂ promote_set)
      match isAtomicName r with
      | some var_name =>
        match find_position var_name captured with
        | none => .error .unknownVariable
        | some position =>
          let p := make_number (position : Int) (k₂ + 1)
          .ok (ret₁.insert (.ptr p.2 p.1), p.2 + 1)
      | none =>
        match convert_subset r lambda_depth captured (k₂ + 1) with
        | .error e => .error e
        | .ok (sub, k₄) => .ok (ret₁.insert (.ptr k₄ sub), k₄ + 1)
  | .group inner, lambda_depth, captured, k =>
    convert_subset inner lambda_depth captured k
  | .atomic _, _, _, _ => .error .huh
  | .nullNode, _, _, k => .ok (SLC_set.mk [], k)

/-- Model of `ULC_converter::convert_dbj`: entry point with an empty capture stack;
a null root (a failed parse) yields the default-constructed empty set. -/
def ULC_converter.convert_dbj (root : Option ULC_AST) (k : Nat) :
    Except CppError (SLC_set × Nat) :=
  match root with
  | none => .ok (SLC_set.mk [], k)
  | some node => convert_subset_dbj node 0 [] k

/-- Model of `ULC_converter::convert`: entry point of the name-preserving mode. -/
def ULC_converter.convert (root : Option ULC_AST) (k : Nat) :
    Except CppError (SLC_set × Nat) :=
  match root with
  | none => .ok (SLC_set.mk [], k)
  | some node => convert_subset node 0 [] k

/-- The scope-resolution skeleton shared by the two converter modes: a
binder whose body is either a directly-resolved capture position
(`Sum.inl`, the case the converters special-case on an `ATOMIC` child) or
a sub-term; an application whose children are likewise positions or
sub-terms; or `hole` — an `ATOMIC` node reached at switch position, which
neither converter resolves. -/
inductive DBTerm : Type where
  | hole : DBTerm
  | lam (body : Sum Nat DBTerm) : DBTerm
  | app (left right : Sum Nat DBTerm) : DBTerm
deriving Repr

mutual

/-- Resolution of every variable occurrence of an AST against the capture
stack, recorded mode-independently: which occurrences resolve inline
(`Sum.inl` with their 1-based position), which sub-terms recurse, and
which `ATOMIC` nodes sit unhandled at switch position (`hole`).  The
single error is an unresolved variable at a resolution site, discovered in
the converters' traversal order. -/
def resolveT : ULC_AST → List String → Except Unit DBTerm
  | .atomic _, _ => .ok .hole
  | .nullNode, _ => .ok .hole
  | .group inner, c => resolveT inner c
  | .definition v b, c =>
    match isAtomicName b with
    | some name =>
      match find_position name (v :: c) with
      | none => .error ()
      | some p => .ok (.lam (.inl p))
    | none =>
      match resolveT b (v :: c) with
      | .error e => .error e
      | .ok t => .ok (.lam (.inr t))
  | .application l r, c =>
    match resolveChild l c with
    | .error e => .error e
    | .ok l' =>
      match resolveChild r c with
      | .error e => .error e
      | .ok r' => .ok (.app l' r')
termination_by a _ => (sizeOf a, 0)

/-- Resolution of a direct child of an `APPLICATION`: an `ATOMIC` child is
looked up in the capture stack, anything else recurses. -/
def resolveChild (x : ULC_AST) (c : List String) : Except Unit (Sum Nat DBTerm) :=
  match isAtomicName x with
  | some name =>
    match find_position name c with
    | none => .error ()
    | some p => .ok (.inl p)
  | none =>
    match resolveT x c with
    | .error e => .error e
    | .ok t => .ok (.inr t)
termination_by (sizeOf x, 1)

end

/-- De Bruijn-mode rendering of a resolution skeleton, threading the
allocation counter exactly as `convert_subset_dbj` does: resolved
positions become raw integer elements, binders the `λ` symbol, `hole`s the
empty set. -/
def renderDbj : DBTerm → Nat → SLC_set × Nat
  | .hole, k => (SLC_set.mk [], k)
  | .lam (.inl n), k =>
    (((SLC_set.mk []).insert (.sym "λ")).insert (.int (n : Int)), k)
  | .lam (.inr t), k =>
    let p := renderDbj t k
    (((SLC_set.mk []).insert (.sym "λ")).insert (.ptr p.2 p.1), p.2 + 1)
  | .app l r, k =>
    let leftStep : SLC_set × Nat :=
      match l with
      | .inl n => ((SLC_set.mk []).insert (.int (n : Int)), k)
      | .inr t =>
        let p := renderDbj t k
        ((SLC_set.mk []).insert (.ptr p.2 p.1), p.2 + 1)
    let ret₁ := (SLC_set.mk []).insert (.ptr leftStep.2 leftStep.1)
    match r with
    | .inl n => (ret₁.insert (.int (n : Int)), leftStep.2 + 1)
    | .inr t =>
      let p := renderDbj t (leftStep.2 + 1)
      (ret₁.insert (.ptr p.2 p.1), p.2 + 1)

/-- Name-preserving-mode rendering of a resolution skeleton, threading the
allocation counter exactly as `convert_subset` does: resolved positions
become `make_number` numerals behind fresh allocations, binders the
two-level `{{}}` wrapper.  (`hole` is rendered as the empty set for
totality; the name-preserving converter in fact throws there.) -/
def renderName : DBTerm → Nat → SLC_set × Nat
  | .hole, k => (SLC_set.mk [], k)
  | .lam b, k =>
    let lambda_top := (SLC_set.mk []).insert (.ptr k (SLC_set.mk []))
    let ret₀ := (SLC_set.mk []).insert (.ptr (k + 1) lambda_top)
    match b with
    | .inl n =>
      let p := make_number (n : Int) (k + 2)
      (ret₀.insert (.ptr p.2 p.1), p.2 + 1)
    | .inr t =>
      let p := renderName t (k + 2)
      (ret₀.insert (.ptr p.2 p.1), p.2 + 1)
  | .app l r, k =>
    let leftStep : SLC_set × Nat :=
      match l with
      | .inl n =>
        let p := make_number (n : Int) k
        ((SLC_set.mk []).insert (.ptr p.2 p.1), p.2 + 1)
      | .inr t =>
        let p := renderName t k
        ((SLC_set.mk []).insert (.ptr p.2 p.1), p.2 + 1)
    let ret₁ := (SLC_set.mk []).insert (.ptr leftStep.2 leftStep.1)
    match r with
    | .inl n =>
      let p := make_number (n : Int) (leftStep.2 + 1)
      (ret₁.insert (.ptr p.2 p.1), p.2 + 1)
    | .inr t =>
      let p := renderName t (leftStep.2 + 1)
      (ret₁.insert (.ptr p.2 p.1), p.2 + 1)

/-- The converter `convert_subset_dbj` factors through scope resolution: it fails (with
`Unknown variable`) exactly when resolution fails, and otherwise renders
the resolution skeleton in De Bruijn mode. -/
theorem convert_subset_dbj_resolveT (a : ULC_AST) :
    ∀ (d : Int) (c : List String) (k : Nat),
      convert_subset_dbj a d c k =
        match resolveT a c with
        | .error _ => .error CppError.unknownVariable
        | .ok t => .ok (renderDbj t k) := by
  induction a with
  | atomic name => intro d c k; simp [convert_subset_dbj, resolveT, renderDbj]
  | nullNode => intro d c k; simp [convert_subset_dbj, resolveT, renderDbj]
  | group inner ih =>
    intro d c k
    simp only [convert_subset_dbj, resolveT]
    exact ih d c k
  | definition v b ih =>
    intro d c k
    simp only [convert_subset_dbj, resolveT, ih]
    cases isAtomicName b with
    | some name =>
      dsimp only
      cases find_position name (v :: c) with
      | none => rfl
      | some p => simp [renderDbj]
    | none =>
      dsimp only
      cases resolveT b (v :: c) with
      | error e => rfl
      | ok t => simp [renderDbj]
  | application l r ihl ihr =>
    intro d c k
    simp only [convert_subset_dbj, resolveT, resolveChild, ihl, ihr]
    cases isAtomicName l with
    | some name =>
      dsimp only
      cases find_position name c with
      | none => rfl
      | some p =>
        dsimp only
        cases isAtomicName r with
        | some name2 =>
          dsimp only
          cases find_position name2 c with
          | none => rfl
          | some q => simp [renderDbj]
        | none =>
          dsimp only
          cases resolveT r c with
          | error e => rfl
          | ok t => simp [renderDbj]
    | none =>
      dsimp only
      cases resolveT l c with
      | error e => rfl
      | ok t =>
        dsimp only
        cases isAtomicName r with
        | some name2 =>
          dsimp only
          cases find_position name2 c with
          | none => simp [renderDbj]
          | some q => simp [renderDbj]
        | none =>
          dsimp only
          cases resolveT r c with
          | error e => simp [renderDbj]
          | ok t2 => simp [renderDbj]

mutual

/-- Scope resolution as the name-preserving converter traverses it: same
skeleton as `resolveT`, except that an `ATOMIC` at switch position is
where `convert_subset` falls off its switch and throws `"Huh??"`, so it
aborts the traversal here too. -/
def resolveTN : ULC_AST → List String → Except CppError DBTerm
  | .atomic _, _ => .error .huh
  | .nullNode, _ => .ok .hole
  | .group inner, c => resolveTN inner c
  | .definition v b, c =>
    match isAtomicName b with
    | some name =>
      match find_position name (v :: c) with
      | none => .error .unknownVariable
      | some p => .ok (.lam (.inl p))
    | none =>
      match resolveTN b (v :: c) with
      | .error e => .error e
      | .ok t => .ok (.lam (.inr t))
  | .application l r, c =>
    match resolveChildN l c with
    | .error e => .error e
    | .ok l' =>
      match resolveChildN r c with
      | .error e => .error e
      | .ok r' => .ok (.app l' r')
termination_by a _ => (sizeOf a, 0)

/-- Name-preserving-mode resolution of a direct child of an
`APPLICATION`. -/
def resolveChildN (x : ULC_AST) (c : List String) : Except CppError (Sum Nat DBTerm) :=
  match isAtomicName x with
  | some name =>
    match find_position name c with
    | none => .error .unknownVariable
    | some p => .ok (.inl p)
  | none =>
    match resolveTN x c with
    | .error e => .error e
    | .ok t => .ok (.inr t)
termination_by (sizeOf x, 1)

end

/-- The converter `convert_subset` factors through name-preserving-mode scope
resolution: it throws exactly when `resolveTN` does (`"Huh??"` at an
unhandled `ATOMIC`, `"Unknown variable"` at an unbound reference), and
otherwise renders the resolution skeleton through `make_number`. -/
theorem convert_subset_resolveTN (a : ULC_AST) :
    ∀ (d : Int) (c : List String) (k : Nat),
      convert_subset a d c k =
        match resolveTN a c with
        | .error e => .error e
        | .ok t => .ok (renderName t k) := by
  induction a with
  | atomic name => intro d c k; simp [convert_subset, resolveTN]
  | nullNode => intro d c k; simp [convert_subset, resolveTN, renderName]
  | group inner ih =>
    intro d c k
    simp only [convert_subset, resolveTN]
    exact ih d c k
  | definition v b ih =>
    intro d c k
    simp only [convert_subset, resolveTN, ih]
    cases isAtomicName b with
    | some name =>
      dsimp only
      cases find_position name (v :: c) with
      | none => rfl
      | some p => simp [renderName]
    | none =>
      dsimp only
      cases resolveTN b (v :: c) with
      | error e => rfl
      | ok t => simp [renderName]
  | application l r ihl ihr =>
    intro d c k
    simp only [convert_subset, resolveTN, resolveChildN, ihl, ihr]
    cases isAtomicName l with
    | some name =>
      dsimp only
      cases find_position name c with
      | none => rfl
      | some p =>
        dsimp only
        cases isAtomicName r with
        | some name2 =>
          dsimp only
          cases find_position name2 c with
          | none => rfl
          | some q => simp [renderName]
        | none =>
          dsimp only
          cases resolveTN r c with
          | error e => rfl
          | ok t => simp [renderName]
    | none =>
      dsimp only
      cases resolveTN l c with
      | error e => rfl
      | ok t =>
        dsimp only
        cases isAtomicName r with
        | some name2 =>
          dsimp only
          cases find_position name2 c with
          | none => simp [renderName]
          | some q => simp [renderName]
        | none =>
          dsimp only
          cases resolveTN r c with
          | error e => simp [renderName]
          | ok t2 => simp [renderName]

/-- If the name-preserving traversal resolves a term, the De Bruijn
traversal resolves it to the **same** skeleton (the two modes consult the
capture stack identically). -/
theorem resolveTN_ok_resolveT (a : ULC_AST) :
    ∀ (c : List String) (t : DBTerm),
      resolveTN a c = .ok t → resolveT a c = .ok t := by
  induction a with
  | atomic name => intro c t h; simp [resolveTN] at h
  | nullNode =>
    intro c t h
    simp only [resolveTN] at h
    simp only [resolveT]
    simp at h
    subst h
    rfl
  | group inner ih =>
    intro c t h
    simp only [resolveTN] at h
    simp only [resolveT]
    exact ih c t h
  | definition v b ih =>
    intro c t h
    simp only [resolveTN] at h
    simp only [resolveT]
    cases hab : isAtomicName b with
    | some name =>
      rw [hab] at h
      dsimp only at h ⊢
      cases hfp : find_position name (v :: c) with
      | none => rw [hfp] at h; simp at h
      | some p =>
        rw [hfp] at h
        simp at h
        subst h
        rfl
    | none =>
      rw [hab] at h
      dsimp only at h ⊢
      cases hrb : resolveTN b (v :: c) with
      | error e => rw [hrb] at h; simp at h
      | ok tb =>
        rw [hrb] at h
        simp at h
        subst h
        rw [ih (v :: c) tb hrb]
  | application l r ihl ihr =>
    intro c t h
    simp only [resolveTN, resolveChildN] at h
    simp only [resolveT, resolveChild]
    cases hal : isAtomicName l with
    | some name =>
      rw [hal] at h
      dsimp only at h ⊢
      cases hfp : find_position name c with
      | none => rw [hfp] at h; simp at h
      | some p =>
        rw [hfp] at h
        dsimp only at h ⊢
        cases har : isAtomicName r with
        | some name2 =>
          rw [har] at h
          dsimp only at h ⊢
          cases hfp2 : find_position name2 c with
          | none => rw [hfp2] at h; simp at h
          | some q =>
            rw [hfp2] at h
            simp at h
            subst h
            rfl
        | none =>
          rw [har] at h
          dsimp only at h ⊢
          cases hrn : resolveTN r c with
          | error e => rw [hrn] at h; simp at h
          | ok t2 =>
            rw [hrn] at h
            simp at h
            subst h
            rw [ihr c t2 hrn]
    | none =>
      rw [hal] at h
      dsimp only at h ⊢
      cases hln : resolveTN l c with
      | error e => rw [hln] at h; simp at h
      | ok t1 =>
        rw [hln] at h
        dsimp only at h
        rw [ihl c t1 hln]
        dsimp only
        cases har : isAtomicName r with
        | some name2 =>
          rw [har] at h
          dsimp only at h ⊢
          cases hfp2 : find_position name2 c with
          | none => rw [hfp2] at h; simp at h
          | some q =>
            rw [hfp2] at h
            simp at h
            subst h
            rfl
        | none =>
          rw [har] at h
          dsimp only at h ⊢
          cases hrn : resolveTN r c with
          | error e => rw [hrn] at h; simp at h
          | ok t2 =>
            rw [hrn] at h
            simp at h
            subst h
            rw [ihr c t2 hrn]

/-- Is an `Except` a success? -/
def exceptOk : Except ε α → Bool
  | .ok _ => true
  | .error _ => false

mutual

/-- Every `ATOMIC` node of the AST sits at a resolution site (as the
direct child of a `DEFINITION` or `APPLICATION`), never at switch
position: the AST avoids the converters' unhandled case.  False for a bare
variable at the root and for a variable directly inside a `GROUP`. -/
def goodT : ULC_AST → Bool
  | .atomic _ => false
  | .nullNode => true
  | .group inner => goodT inner
  | .definition _ b =>
    match isAtomicName b with
    | some _ => true
    | none => goodT b
  | .application l r => goodC l && goodC r
termination_by a => (sizeOf a, 0)

/-- Predicate `goodT` for a direct child: an `ATOMIC` child is fine. -/
def goodC (x : ULC_AST) : Bool :=
  match isAtomicName x with
  | some _ => true
  | none => goodT x
termination_by (sizeOf x, 1)

end

mutual

/-- Every variable occurrence at a resolution site is lexically enclosed
by a `Definition` binding the same name (i.e. found in the capture
stack `c` extended on the way down). -/
def boundT : ULC_AST → List String → Bool
  | .atomic _, _ => true
  | .nullNode, _ => true
  | .group inner, c => boundT inner c
  | .definition v b, c =>
    match isAtomicName b with
    | some name => (find_position name (v :: c)).isSome
    | none => boundT b (v :: c)
  | .application l r, c => boundC l c && boundC r c
termination_by a _ => (sizeOf a, 0)

/-- Predicate `boundT` for a direct child: an `ATOMIC` child resolves against the
current stack. -/
def boundC (x : ULC_AST) (c : List String) : Bool :=
  match isAtomicName x with
  | some name => (find_position name c).isSome
  | none => boundT x c
termination_by (sizeOf x, 1)

end

/-- De Bruijn-mode resolution succeeds exactly on fully-bound ASTs. -/
theorem resolveT_isOk_eq_boundT (a : ULC_AST) :
    ∀ c, exceptOk (resolveT a c) = boundT a c := by
  induction a with
  | atomic name => intro c; simp [resolveT, boundT, exceptOk]
  | nullNode => intro c; simp [resolveT, boundT, exceptOk]
  | group inner ih =>
    intro c
    simp only [resolveT, boundT]
    exact ih c
  | definition v b ih =>
    intro c
    simp only [resolveT, boundT]
    cases hab : isAtomicName b with
    | some name =>
      dsimp only
      cases hfp : find_position name (v :: c) <;> simp [exceptOk]
    | none =>
      dsimp only
      rw [← ih (v :: c)]
      cases hrb : resolveT b (v :: c) <;> simp [exceptOk]
  | application l r ihl ihr =>
    intro c
    simp only [resolveT, resolveChild, boundT, boundC]
    cases hal : isAtomicName l with
    | some name =>
      dsimp only
      cases hfp : find_position name c with
      | none => simp [exceptOk]
      | some p =>
        dsimp only
        cases har : isAtomicName r with
        | some name2 =>
          dsimp only
          cases hfp2 : find_position name2 c <;> simp [exceptOk]
        | none =>
          dsimp only
          rw [← ihr c]
          cases hrn : resolveT r c <;> simp [exceptOk]
    | none =>
      dsimp only
      rw [← ihl c]
      cases hln : resolveT l c with
      | error e => simp [exceptOk]
      | ok t1 =>
        dsimp only
        cases har : isAtomicName r with
        | some name2 =>
          dsimp only
          cases hfp2 : find_position name2 c <;> simp [exceptOk]
        | none =>
          dsimp only
          rw [← ihr c]
          cases hrn : resolveT r c <;> simp [exceptOk]

/-- On ASTs with no `ATOMIC` at switch position the name-preserving
traversal never reaches its unhandled case, so it resolves exactly as the
De Bruijn traversal does (with `Unknown variable` as the only failure). -/
theorem resolveTN_good (a : ULC_AST) :
    ∀ c, goodT a = true →
      resolveTN a c =
        (match resolveT a c with
         | .error _ => .error CppError.unknownVariable
         | .ok t => .ok t) := by
  induction a with
  | atomic name => intro c hg; simp [goodT] at hg
  | nullNode => intro c hg; simp [resolveTN, resolveT]
  | group inner ih =>
    intro c hg
    simp only [goodT] at hg
    simp only [resolveTN, resolveT]
    exact ih c hg
  | definition v b ih =>
    intro c hg
    simp only [goodT] at hg
    simp only [resolveTN, resolveT]
    cases hab : isAtomicName b with
    | some name =>
      dsimp only
      cases hfp : find_position name (v :: c) <;> simp
    | none =>
      rw [hab] at hg
      dsimp only at hg ⊢
      rw [ih (v :: c) hg]
      cases hrb : resolveT b (v :: c) <;> simp
  | application l r ihl ihr =>
    intro c hg
    simp only [goodT] at hg
    obtain ⟨hgl, hgr⟩ := by simpa [Bool.and_eq_true] using hg
    simp only [resolveTN, resolveChildN, resolveT, resolveChild]
    cases hal : isAtomicName l with
    | some name =>
      dsimp only
      cases hfp : find_position name c with
      | none => simp
      | some p =>
        dsimp only
        cases har : isAtomicName r with
        | some name2 =>
          dsimp only
          cases hfp2 : find_position name2 c <;> simp
        | none =>
          simp only [goodC, har] at hgr
          dsimp only
          rw [ihr c hgr]
          cases hrn : resolveT r c <;> simp
    | none =>
      simp only [goodC, hal] at hgl
      dsimp only
      rw [ihl c hgl]
      cases hln : resolveT l c with
      | error e => simp
      | ok t1 =>
        dsimp only
        cases har : isAtomicName r with
        | some name2 =>
          dsimp only
          cases hfp2 : find_position name2 c <;> simp
        | none =>
          simp only [goodC, har] at hgr
          dsimp only
          rw [ihr c hgr]
          cases hrn : resolveT r c <;> simp

/-- Model of `ULC_token_type`. -/
inductive ULC_token_type : Type where
  | LAMBDA | VARIABLE | DOT | O_PAREN | C_PAREN | EOF_TOK
deriving DecidableEq, Repr

/-- Model of `ULC_token`: a tag plus the matched text (empty for `EOF`). -/
structure ULC_token where
  type : ULC_token_type
  text : String
deriving DecidableEq, Repr

/-- Model of `std::isspace` in the default locale. -/
def isspace_cpp (c : Char) : Bool :=
  c = ' ' || c = '\t' || c = '\n' || c = '\x0b' || c = '\x0c' || c = '\r'

/-- Model of `std::isalnum` in the default locale. -/
def isalnum_cpp (c : Char) : Bool :=
  ('0' ≤ c && c ≤ '9') || ('a' ≤ c && c ≤ 'z') || ('A' ≤ c && c ≤ 'Z')

/-- The maximal alphanumeric run at the head of the input, and what
follows it. -/
def takeAlnum : List Char → List Char × List Char
  | [] => ([], [])
  | c :: cs =>
    if isalnum_cpp c then
      let p := takeAlnum cs
      (c :: p.1, p.2)
    else ([], c :: cs)

/-- Model of `ULC_lexer::next_token`, on the unread remainder of the input (the
cursor only ever moves forward): end of input — possibly after skipping
whitespace — gives `EOF`; `.`/`\`/`(`/`)` give single-character tokens; an
alphanumeric head gives the maximal alphanumeric run as a `VARIABLE`;
anything else throws `Invalid token`. -/
def next_token : List Char → Except CppError (ULC_token × List Char)
  | [] => .ok (⟨.EOF_TOK, ""⟩, [])
  | c :: cs =>
    if isspace_cpp c then next_token cs
    else if c = '.' then .ok (⟨.DOT, "."⟩, cs)
    else if c = '\\' then .ok (⟨.LAMBDA, "\\"⟩, cs)
    else if c = '(' then .ok (⟨.O_PAREN, "("⟩, cs)
    else if c = ')' then .ok (⟨.C_PAREN, ")"⟩, cs)
    else if isalnum_cpp c then
      let p := takeAlnum (c :: cs)
      .ok (⟨.VARIABLE, String.mk p.1⟩, p.2)
    else .error .invalidToken

/-- The parser's observable state: the current token (`tokens_[token_id_]`,
which always exists) and the unread text.  The C++ memoizes tokens in a
vector so that backtracking can rewind `token_id_`; since the lexer is
deterministic and pure, rewinding is modelled by keeping the old state
value. -/
structure PState : Type where
  cur : ULC_token
  rest : List Char
deriving DecidableEq, Repr

/-- Model of `ULC_parser::next_token` (advance to the following token). -/
def parser_advance (st : PState) : Except CppError PState :=
  match next_token st.rest with
  | .error e => .error e
  | .ok (t, r) => .ok ⟨t, r⟩

/-- Model of `ULC_parser::consume_type`: consume the current token if it has the
requested type, reporting whether it did. -/
def consume_type (ty : ULC_token_type) (st : PState) :
    Except CppError (Bool × PState) :=
  if st.cur.type = ty then
    match parser_advance st with
    | .error e => .error e
    | .ok st' => .ok (true, st')
  else .ok (false, st)

/-- Model of `ULC_parser::consume_variable`: consume a `VARIABLE` token into an
`ATOMIC` node, or yield null. -/
def consume_variable (st : PState) : Except CppError (Option ULC_AST × PState) :=
  if st.cur.type = .VARIABLE then
    match parser_advance st with
    | .error e => .error e
    | .ok st' => .ok (some (.atomic st.cur.text), st')
  else .ok (none, st)

mutual

/-- Model of `ULC_parser::parse_abstraction`: `λ` `VARIABLE` `.` `Expr`, or rewind
the token cursor and yield null.  The `fuel` argument bounds the recursion
depth of the model; every recursive call consumes at least one character,
so any fuel larger than the input length is enough and `outOfFuel` is
unreachable from the entry point below. -/
def parse_abstraction (fuel : Nat) (st : PState) :
    Except CppError (Option ULC_AST × PState) :=
  match fuel with
  | 0 => .error .outOfFuel
  | f + 1 =>
    match consume_type .LAMBDA st with
    | .error e => .error e
    | .ok (false, _) => .ok (none, st)
    | .ok (true, st₁) =>
      match consume_variable st₁ with
      | .error e => .error e
      | .ok (none, _) => .ok (none, st)
      | .ok (some var, st₂) =>
        match consume_type .DOT st₂ with
        | .error e => .error e
        | .ok (false, _) => .ok (none, st)
        | .ok (true, st₃) =>
          match parse_expression f st₃ with
          | .error e => .error e
          | .ok (none, _) => .ok (none, st)
          | .ok (some expr, st₄) =>
            .ok (some (.definition ((isAtomicName var).getD "") expr), st₄)

/-- Model of `ULC_parser::parse_expression`: an abstraction when the lookahead is
`λ`, otherwise an atomic followed by the application left-fold. -/
def parse_expression (fuel : Nat) (st : PState) :
    Except CppError (Option ULC_AST × PState) :=
  match fuel with
  | 0 => .error .outOfFuel
  | f + 1 =>
    if st.cur.type = .LAMBDA then parse_abstraction f st
    else
      match parse_atomic f st with
      | .error e => .error e
      | .ok (none, st') => .ok (none, st')
      | .ok (some head, st₁) => parse_app_loop f head st₁

/-- The `while (true)` application fold of `parse_expression`: while the
lookahead can start an atomic, parse one and fold it to the right of the
head. -/
def parse_app_loop (fuel : Nat) (head : ULC_AST) (st : PState) :
    Except CppError (Option ULC_AST × PState) :=
  match fuel with
  | 0 => .error .outOfFuel
  | f + 1 =>
    if st.cur.type = .VARIABLE || st.cur.type = .O_PAREN then
      match parse_atomic f st with
      | .error e => .error e
      | .ok (none, st') => .ok (some head, st')
      | .ok (some next_arg, st') =>
        parse_app_loop f (.application head next_arg) st'
    else .ok (some head, st)

/-- Model of `ULC_parser::parse_atomic`: a parenthesized expression — whose result
is stored into a `GROUP` node *without* a null check, so `"()"` produces
`GROUP(null)` — requiring the closing `)` on pain of
`Unbalanced parens!`, or a variable. -/
def parse_atomic (fuel : Nat) (st : PState) :
    Except CppError (Option ULC_AST × PState) :=
  match fuel with
  | 0 => .error .outOfFuel
  | f + 1 =>
    match consume_type .O_PAREN st with
    | .error e => .error e
    | .ok (true, st₁) =>
      match parse_expression f st₁ with
      | .error e => .error e
      | .ok (inner, st₂) =>
        match consume_type .C_PAREN st₂ with
        | .error e => .error e
        | .ok (false, _) => .error .unbalancedParens
        | .ok (true, st₃) =>
          .ok (some (.group (inner.getD .nullNode)), st₃)
    | .ok (false, _) =>
      match consume_variable st with
      | .error e => .error e
      | .ok (v, st') => .ok (v, st')

end

/-- The `ULC_parser` constructor (pull the first token) followed by
`parse()`: returns the root node — null when no production matches at the
start, as for empty input — or throws the lexer/parser errors.  The fuel
`2 * length + 8` over-approximates the recursion depth, which is bounded
by the number of unread characters at every nested call. -/
def ULC_parse (text : List Char) : Except CppError (Option ULC_AST) :=
  match next_token text with
  | .error e => .error e
  | .ok (t, r) =>
    match parse_expression (2 * text.length + 8) ⟨t, r⟩ with
    | .error e => .error e
    | .ok (root, _) => .ok root

/-- The `ULC_converter(text)` constructor followed by
`convert_dbj().to_string()`: the De Bruijn-mode half of `display`. -/
def display_dbj (text : String) : Except CppError String :=
  match ULC_parse text.data with
  | .error e => .error e
  | .ok root =>
    match ULC_converter.convert_dbj root 0 with
    | .error e => .error e
    | .ok p => .ok p.1.to_string

/-- The `ULC_converter(text)` constructor followed by
`convert().to_string()`: the name-preserving half of `display`. -/
def display_slc (text : String) : Except CppError String :=
  match ULC_parse text.data with
  | .error e => .error e
  | .ok root =>
    match ULC_converter.convert root 0 with
    | .error e => .error e
    | .ok p => .ok p.1.to_string

/-- The element order is strict: nothing is below itself (so `std::set`
treats a re-inserted equal element as already present). -/
theorem elemLt_self (e : SLC_element) : elemLt e e = false := by
  cases e <;> simp [elemLt]

/-- The operation `std::set::insert` is idempotent at the element level: inserting `e`
into a list into which `e` was just inserted changes nothing. -/
theorem insertElem_idem (e : SLC_element) :
    ∀ l, insertElem e (insertElem e l) = insertElem e l := by
  intro l
  induction l with
  | nil => simp [insertElem, elemLt_self]
  | cons x xs ih =>
    by_cases h1 : elemLt e x
    · simp [insertElem, h1, elemLt_self]
    · by_cases h2 : elemLt x e
      · simp [insertElem, h1, h2, ih]
      · simp [insertElem, h1, h2]

/-- All elements are nested sets allocated below address `m`. -/
def ptrsBelow : List SLC_element → Nat → Bool
  | [], _ => true
  | .ptr a _ :: r, m => decide (a < m) && ptrsBelow r m
  | _ :: _, _ => false

/-- Inserting a nested set whose address is at least `m` into a set of
nested sets allocated below `m` appends it at the end. -/
theorem insertElem_ptr_append (a : Nat) (c : SLC_set) :
    ∀ (l : List SLC_element) (m : Nat), ptrsBelow l m = true → m ≤ a →
      insertElem (.ptr a c) l = l ++ [.ptr a c] := by
  intro l
  induction l with
  | nil => intro m _ _; rfl
  | cons x xs ih =>
    intro m hb hm
    cases x with
    | sym s => simp [ptrsBelow] at hb
    | int n => simp [ptrsBelow] at hb
    | ptr b s =>
      simp only [ptrsBelow, Bool.and_eq_true, decide_eq_true_eq] at hb
      have h1 : elemLt (.ptr a c) (.ptr b s) = false := by
        simp [elemLt]
        omega
      have h2 : elemLt (.ptr b s) (.ptr a c) = true := by
        simp [elemLt]
        omega
      simp [insertElem, h1, h2, ih m hb.2 hm]

/-- Appending the freshly allocated set keeps all addresses below the
next counter value. -/
theorem ptrsBelow_append (c : SLC_set) :
    ∀ (l : List SLC_element) (m : Nat), ptrsBelow l m = true →
      ptrsBelow (l ++ [.ptr m c]) (m + 1) = true := by
  intro l
  induction l with
  | nil => intro m _; simp [ptrsBelow]
  | cons x xs ih =>
    intro m hb
    cases x with
    | sym s => simp [ptrsBelow] at hb
    | int n => simp [ptrsBelow] at hb
    | ptr b s =>
      simp only [ptrsBelow, Bool.and_eq_true, decide_eq_true_eq] at hb
      simp only [List.cons_append, ptrsBelow, Bool.and_eq_true, decide_eq_true_eq]
      exact ⟨by omega, ih m hb.2⟩

/-- The `n` extra empty sets of the `make_number` loop, with consecutive
addresses from `m`. -/
def extraPtrs : Nat → Nat → List SLC_element
  | 0, _ => []
  | n + 1, m => .ptr m (.mk []) :: extraPtrs n (m + 1)

/-- The loop `addExtras` appends its elements in allocation order. -/
theorem addExtras_eq :
    ∀ (n : Nat) (m : Nat) (l : List SLC_element), ptrsBelow l m = true →
      addExtras n m (.mk l) = .mk (l ++ extraPtrs n m) := by
  intro n
  induction n with
  | zero => intro m l _; simp [addExtras, extraPtrs]
  | succ n ih =>
    intro m l hb
    have hins : insertElem (SLC_element.ptr m (SLC_set.mk [])) l =
        l ++ [SLC_element.ptr m (SLC_set.mk [])] :=
      insertElem_ptr_append m (.mk []) l m hb (Nat.le_refl m)
    have hb' := ptrsBelow_append (SLC_set.mk []) l m hb
    simp only [addExtras, SLC_set.insert, SLC_set.elements, hins]
    rw [ih (m + 1) (l ++ [SLC_element.ptr m (SLC_set.mk [])]) hb']
    simp [extraPtrs]

/-- Exactly `n` copies of the `", {}"` rendering of an extra empty-set sibling. -/
def repExtra : Nat → String
  | 0 => ""
  | n + 1 => ", \x7b\x7d" ++ repExtra n

/-- Rendering a head element followed by the extra empty sets. -/
theorem renderElements_extras :
    ∀ (n m : Nat) (e : SLC_element),
      renderElements (e :: extraPtrs n m) = renderElement e ++ repExtra n := by
  intro n
  induction n with
  | zero => intro m e; simp [extraPtrs, renderElements, repExtra]
  | succ n ih =>
    intro m e
    simp only [extraPtrs, renderElements]
    rw [show renderElement e ++ ", " ++
          renderElements (SLC_element.ptr m (SLC_set.mk []) :: extraPtrs n (m + 1)) =
        renderElement e ++ (", " ++
          renderElements (SLC_element.ptr m (SLC_set.mk []) :: extraPtrs n (m + 1))) from by
      simp [String.append_assoc]]
    rw [ih (m + 1) (.ptr m (.mk []))]
    simp only [renderElement, SLC_set.to_string, renderElements, repExtra]
    rfl


deriving instance DecidableEq for Except

/-- C1: the claim — `to_string` is a pure function of term structure, with
nested sets ordered by their canonical serialization — fails on the code:
`std::set<SLC_element>` orders nested-set elements by `shared_ptr` address
(allocation order), not by structure.  The two bracket inputs
`{{}{{}}}` and `{{{}}{}}` parse to terms with identical final element
collections (equal spec-side canonical serializations), yet `to_string`
renders them differently, because the sibling sets complete — and are
allocated — in opposite orders. -/
theorem claim_C1_render_not_canonical :
    parse_toposet "\x7b\x7b\x7d\x7b\x7b\x7d\x7d\x7d".data =
      Except.ok (SLC_set.mk
        [SLC_element.ptr 0 (SLC_set.mk []),
         SLC_element.ptr 2 (SLC_set.mk [SLC_element.ptr 1 (SLC_set.mk [])])]) ∧
    parse_toposet "\x7b\x7b\x7b\x7d\x7d\x7b\x7d\x7d".data =
      Except.ok (SLC_set.mk
        [SLC_element.ptr 1 (SLC_set.mk [SLC_element.ptr 0 (SLC_set.mk [])]),
         SLC_element.ptr 2 (SLC_set.mk [])]) ∧
    canon (SLC_set.mk
        [SLC_element.ptr 0 (SLC_set.mk []),
         SLC_element.ptr 2 (SLC_set.mk [SLC_element.ptr 1 (SLC_set.mk [])])]) =
      canon (SLC_set.mk
        [SLC_element.ptr 1 (SLC_set.mk [SLC_element.ptr 0 (SLC_set.mk [])]),
         SLC_element.ptr 2 (SLC_set.mk [])]) ∧
    SLC_set.to_string (SLC_set.mk
        [SLC_element.ptr 0 (SLC_set.mk []),
         SLC_element.ptr 2 (SLC_set.mk [SLC_element.ptr 1 (SLC_set.mk [])])]) ≠
      SLC_set.to_string (SLC_set.mk
        [SLC_element.ptr 1 (SLC_set.mk [SLC_element.ptr 0 (SLC_set.mk [])]),
         SLC_element.ptr 2 (SLC_set.mk [])]) := by
  refine ⟨rfl, rfl, ?_, by decide⟩
  simp [canon, canonList, canonElem, insertStr, joinComma]

/-- C2, counterexample: inserting a nested set structurally identical to
one already in the term (same spec-side canonical rendering, but — as for
every nested-set insertion in this program — behind a fresh allocation,
here address 1 next to the present address 0) is *not* a no-op: `{{}}`
becomes `{{}, {}}`.  `std::set` compares the `shared_ptr`s, which differ,
so the claim fails for nested-set elements. -/
theorem claim_C2_insert_counterexample :
    canonElem (SLC_element.ptr 1 (SLC_set.mk [])) =
      canonElem (SLC_element.ptr 0 (SLC_set.mk [])) ∧
    SLC_set.to_string ((SLC_set.mk [SLC_element.ptr 0 (SLC_set.mk [])]).insert
        (SLC_element.ptr 1 (SLC_set.mk []))) ≠
      SLC_set.to_string (SLC_set.mk [SLC_element.ptr 0 (SLC_set.mk [])]) := by
  refine ⟨rfl, ?_⟩
  decide

/-- C2, amended: insertion is idempotent for elements that compare equal
under the implementation's comparator — equal symbol text, equal integer,
or the *same allocation* for nested sets: re-inserting such an element
leaves both the term and its rendered string unchanged.  (A structurally
identical nested set behind a fresh allocation is instead added as a new
element, as the counterexample shows.) -/
theorem claim_C2_insert_idempotent (s : SLC_set) (e : SLC_element) :
    (s.insert e).insert e = s.insert e ∧
    SLC_set.to_string ((s.insert e).insert e) = SLC_set.to_string (s.insert e) := by
  have key : (s.insert e).insert e = s.insert e := by
    show SLC_set.mk (insertElem e (insertElem e s.elements)) =
      SLC_set.mk (insertElem e s.elements)
    rw [insertElem_idem]
  exact ⟨key, congrArg SLC_set.to_string key⟩

/-- C3: whenever both converter modes succeed on an AST (same capture
stack, any lambda depths and allocation counters), their outputs are the
two renderings of one and the same resolution skeleton `t`: the De Bruijn
output is `renderDbj t` — which places the raw integer `n` exactly at the
`Sum.inl n` leaves — and the name-preserving output is `renderName t` —
which places `make_number n` (behind a fresh allocation) at exactly those
same leaves.  Every bound-variable occurrence therefore resolves to the
same 1-based binder distance in both modes. -/
theorem claim_C3_debruijn_distances_agree :
    ∀ (a : ULC_AST) (d₁ d₂ : Int) (c : List String) (k₁ k₂ k₁' k₂' : Nat)
      (s₁ s₂ : SLC_set),
      convert_subset_dbj a d₁ c k₁ = .ok (s₁, k₁') →
      convert_subset a d₂ c k₂ = .ok (s₂, k₂') →
      ∃ t : DBTerm, renderDbj t k₁ = (s₁, k₁') ∧ renderName t k₂ = (s₂, k₂') := by
  intro a d₁ d₂ c k₁ k₂ k₁' k₂' s₁ s₂ h1 h2
  rw [convert_subset_resolveTN a d₂ c k₂] at h2
  cases hn : resolveTN a c with
  | error e => rw [hn] at h2; simp at h2
  | ok t =>
    rw [hn] at h2
    rw [convert_subset_dbj_resolveT a d₁ c k₁] at h1
    rw [resolveTN_ok_resolveT a c t hn] at h1
    injection h1 with h1'
    injection h2 with h2'
    exact ⟨t, h1', h2'⟩

/-- C3, witness: the identity abstraction `λx.x`, converted by both
modes. -/
theorem claim_C3_witness :
    ∃ t : DBTerm,
      renderDbj t 0 = (SLC_set.mk [SLC_element.sym "λ", SLC_element.int 1], 0) ∧
      renderName t 0 =
        (SLC_set.mk
          [SLC_element.ptr 1 (SLC_set.mk [SLC_element.ptr 0 (SLC_set.mk [])]),
           SLC_element.ptr 5 (SLC_set.mk
             [SLC_element.ptr 4 (SLC_set.mk
               [SLC_element.ptr 2 (SLC_set.mk []),
                SLC_element.ptr 3 (SLC_set.mk [])])])], 6) :=
  claim_C3_debruijn_distances_agree (.definition "x" (.atomic "x")) 0 0 [] 0 0 0 6
    (SLC_set.mk [SLC_element.sym "λ", SLC_element.int 1])
    (SLC_set.mk
      [SLC_element.ptr 1 (SLC_set.mk [SLC_element.ptr 0 (SLC_set.mk [])]),
       SLC_element.ptr 5 (SLC_set.mk
         [SLC_element.ptr 4 (SLC_set.mk
           [SLC_element.ptr 2 (SLC_set.mk []),
            SLC_element.ptr 3 (SLC_set.mk [])])])])
    rfl rfl

/-- C4, counterexample: an AST that is a bare `ATOMIC` variable at the
root contains a variable reference with no enclosing `Definition`, yet
conversion does **not** fail with `Unknown variable`: the De Bruijn mode
returns the empty set without any error, and the name-preserving mode
throws the generic `"Huh??"` error instead. -/
theorem claim_C4_unbound_counterexample :
    ULC_converter.convert_dbj (some (.atomic "x")) 0 = .ok (SLC_set.mk [], 0) ∧
    ULC_converter.convert (some (.atomic "x")) 0 = .error .huh ∧
    CppError.huh ≠ CppError.unknownVariable := by
  exact ⟨rfl, rfl, by decide⟩

/-- C4, amended: restricted to ASTs in which no `ATOMIC` node sits at
switch position (not the root, not directly under a `GROUP`) — the shape
the converters actually resolve — binder resolution round-trips: if every
variable reference is lexically enclosed by a `Definition` of the same
name, both converter modes succeed with no error; and if some reference
is not, both modes fail with `Unknown variable`. -/
theorem claim_C4_binder_resolution (a : ULC_AST) (hg : goodT a = true) :
    (boundT a [] = true →
      (∃ r, ULC_converter.convert_dbj (some a) 0 = .ok r) ∧
      (∃ r, ULC_converter.convert (some a) 0 = .ok r)) ∧
    (boundT a [] = false →
      ULC_converter.convert_dbj (some a) 0 = .error .unknownVariable ∧
      ULC_converter.convert (some a) 0 = .error .unknownVariable) := by
  have hd := convert_subset_dbj_resolveT a 0 [] 0
  have hn := convert_subset_resolveTN a 0 [] 0
  have hg' := resolveTN_good a [] hg
  have hok := resolveT_isOk_eq_boundT a []
  constructor
  · intro hb
    cases hr : resolveT a [] with
    | error e =>
      rw [hr] at hok
      rw [hb] at hok
      simp [exceptOk] at hok
    | ok t =>
      refine ⟨⟨renderDbj t 0, ?_⟩, ⟨renderName t 0, ?_⟩⟩
      · show convert_subset_dbj a 0 [] 0 = _
        rw [hd, hr]
      · show convert_subset a 0 [] 0 = _
        rw [hn, hg', hr]
  · intro hb
    cases hr : resolveT a [] with
    | ok t =>
      rw [hr] at hok
      rw [hb] at hok
      simp [exceptOk] at hok
    | error e =>
      constructor
      · show convert_subset_dbj a 0 [] 0 = _
        rw [hd, hr]
      · show convert_subset a 0 [] 0 = _
        rw [hn, hg', hr]

/-- C4, witness: `λx.x` has no switch-position `ATOMIC` and its one
reference is bound, so both modes succeed on it. -/
theorem claim_C4_witness :
    (∃ r, ULC_converter.convert_dbj (some (.definition "x" (.atomic "x"))) 0 = .ok r) ∧
    (∃ r, ULC_converter.convert (some (.definition "x" (.atomic "x"))) 0 = .ok r) :=
  (claim_C4_binder_resolution (.definition "x" (.atomic "x"))
      (by simp [goodT, isAtomicName])).1
    (by simp [boundT, isAtomicName, find_position])

/-- C5: `make_number` produces exactly the specified numeral shapes, for
every allocation counter: the base pair `{{}, {}}` — two structurally
identical empty sets surviving as distinct elements — wrapped in the
outer set, followed by `n - 1` further empty-set siblings, i.e.
`make_number 1` renders `{{{}, {}}}`, `make_number 2` renders
`{{{}, {}}, {}}`, `make_number 3` renders `{{{}, {}}, {}, {}}`, and so
on. -/
theorem claim_C5_make_number_shape (n : Int) (h : 1 ≤ n) (k : Nat) :
    (make_number n k).1.to_string =
      "\x7b\x7b\x7b\x7d, \x7b\x7d\x7d" ++ repExtra (n - 1).toNat ++ "\x7d" := by
  have hbase : insertElem (SLC_element.ptr (k + 1) (SLC_set.mk []))
      [SLC_element.ptr k (SLC_set.mk [])] =
      [SLC_element.ptr k (SLC_set.mk []), SLC_element.ptr (k + 1) (SLC_set.mk [])] := by
    simpa using insertElem_ptr_append (k + 1) (.mk []) [SLC_element.ptr k (.mk [])]
      (k + 1) (by simp [ptrsBelow]) (Nat.le_refl _)
  have hnil : ∀ e : SLC_element, insertElem e [] = [e] := fun _ => rfl
  simp only [make_number, SLC_set.insert, SLC_set.elements, hnil, hbase]
  rw [addExtras_eq ((n - 1).toNat) (k + 3)
    [SLC_element.ptr (k + 2) (SLC_set.mk
      [SLC_element.ptr k (SLC_set.mk []), SLC_element.ptr (k + 1) (SLC_set.mk [])])]
    (by simp [ptrsBelow])]
  simp only [List.cons_append, List.nil_append, SLC_set.to_string]
  rw [renderElements_extras]
  rfl

/-- C5, witness: `make_number 3` at counter 0 renders
`{{{}, {}}, {}, {}}`. -/
theorem claim_C5_witness :
    1 ≤ (3 : Int) ∧
    (make_number 3 0).1.to_string = "\x7b\x7b\x7b\x7d, \x7b\x7d\x7d, \x7b\x7d, \x7b\x7d\x7d" :=
  ⟨by decide, (claim_C5_make_number_shape 3 (by decide) 0).trans (by decide)⟩

/-- C6: the end-to-end De Bruijn examples: lexing, parsing and converting
`"\x.x"` renders `{λ, 1}`, and `"\x.\y.x"` renders `{λ, {λ, 2}}`. -/
theorem claim_C6_debruijn_examples :
    display_dbj "\\x.x" = .ok "\x7bλ, 1\x7d" ∧
    display_dbj "\\x.\\y.x" = .ok "\x7bλ, \x7bλ, 2\x7d\x7d" :=
  ⟨rfl, rfl⟩

/-- C7: the structural parser fails with `Unexpected '}'`
(UnexpectedCloseBraceError) exactly when a `'}'` occurs before any `'{'`
— the only way a close can find the stack empty, since once a group opens
the parse either stays inside it or returns — and fails with
`Could not parse!` (IncompleteInputError) exactly when that does not
happen but no top-level group ever completes; in particular `"{"` gives
`Could not parse!` and `"}"` gives `Unexpected '}'`. -/
theorem claim_C7_error_modes :
    (∀ cs : List Char,
      ((parse_toposet cs = .error .unexpectedClose) ↔ closeBeforeOpen cs = true) ∧
      ((parse_toposet cs = .error .couldNotParse) ↔
        (closeBeforeOpen cs = false ∧ completesTopLevel cs = false))) ∧
    parse_toposet "\x7b".data = .error .couldNotParse ∧
    parse_toposet "\x7d".data = .error .unexpectedClose :=
  ⟨parse_toposet_error_characterization, rfl, rfl⟩

/-- C8: on success the structural parser reconstructs exactly the nesting
skeleton: (1) for every skeleton, parsing its bracket text succeeds and
rebuilds precisely the spec-side reconstruction (every `{...}` group
becomes a nested set inserted into its enclosing term, in completion
order); (2) non-brace characters are ignored — parsing any input equals
parsing its braces only; (3) the parser returns at the first complete
top-level group — whatever text follows an already-successful parse is
ignored. -/
theorem claim_C8_skeleton_reconstruction :
    (∀ t : Skeleton, parse_toposet (renderSkel t) = .ok (skelToSet t 0).1) ∧
    (∀ cs : List Char, parse_toposet cs = parse_toposet (cs.filter isBrace)) ∧
    (∀ (cs r : List Char) (s : SLC_set),
      parse_toposet cs = .ok s → parse_toposet (cs ++ r) = .ok s) :=
  ⟨parse_toposet_renderSkel,
   fun cs => parse_loop_filter cs [] 0,
   fun cs r s h => parse_loop_append_ok cs [] 0 s r h⟩

/-- C8, witness: `"{}"` parses to the empty set, and trailing text after
the complete group is ignored. -/
theorem claim_C8_witness :
    parse_toposet "\x7b\x7dxyz".data = .ok (SLC_set.mk []) :=
  claim_C8_skeleton_reconstruction.2.2 "\x7b\x7d".data "xyz".data (SLC_set.mk []) rfl

/-- C9: `parse()` returns the root AST node for a whole input (e.g. the
left-folded application for `"x y z"`); an unmatched `(` throws
`Unbalanced parens!` (UnbalancedParenError); when no production matches
at the current position — e.g. empty input — `parse()` signals failure by
returning a null root (the behaviour the spec calls `ParseError`; the
C++ has no throw for this case, the null return is the failure signal);
and trailing unconsumed tokens after a complete expression are accepted
without error. -/
theorem claim_C9_parse_contract :
    ULC_parse "x y z".data =
      .ok (some (.application (.application (.atomic "x") (.atomic "y")) (.atomic "z"))) ∧
    ULC_parse "(x".data = .error .unbalancedParens ∧
    ULC_parse "".data = .ok none ∧
    ULC_parse "x )".data = .ok (some (.atomic "x")) ∧
    ULC_parse "x y )(".data =
      .ok (some (.application (.atomic "x") (.atomic "y"))) :=
  ⟨rfl, rfl, rfl, rfl, rfl⟩

/-- C10: a bare `ATOMIC` variable at the root — also when wrapped only in
`GROUP` nodes, as produced by the sources `"x"` and `"(x)"` — hits the
unhandled switch case of both converters: the De Bruijn mode returns the
empty set `{}` without error, the name-preserving mode throws the generic
`"Huh??"` error (distinct from `Unknown variable`), so the two modes
disagree on this input class and neither reports the unbound variable. -/
theorem claim_C10_atomic_root_unhandled :
    ULC_converter.convert_dbj (some (.atomic "x")) 7 = .ok (SLC_set.mk [], 7) ∧
    ULC_converter.convert (some (.atomic "x")) 7 = .error .huh ∧
    ULC_converter.convert_dbj (some (.group (.atomic "x"))) 7 = .ok (SLC_set.mk [], 7) ∧
    ULC_converter.convert (some (.group (.atomic "x"))) 7 = .error .huh ∧
    display_dbj "x" = .ok "\x7b\x7d" ∧
    display_slc "x" = .error .huh ∧
    display_dbj "(x)" = .ok "\x7b\x7d" ∧
    display_slc "(x)" = .error .huh ∧
    CppError.huh ≠ CppError.unknownVariable :=
  ⟨rfl, rfl, rfl, rfl, rfl, rfl, rfl, rfl, by decide⟩
